import Mathlib

/-!
PapersChatbot: verification of the arXiv papers chatbot core.

Shallow embedding of the core of the repository: the paper store
(topic-partitioned JSON files under the papers directory), the search
gateway (searchPapers), the lookup service (extractInfo), the tool
catalog adapter (executeTool) and the conversation loop (processQuery).
JavaScript strings are modelled as lists of characters; the file system
and the remote arXiv endpoint are modelled as explicit state and oracle
parameters.
-/

namespace ArxivChatbot

/-- JavaScript strings, modelled as lists of characters. -/
abbrev Str : Type := List Char

/-- Literal helper: a Lean string literal as a character list. -/
def S (s : String) : Str := s.data

/-- The apostrophe character (code point 39). -/
def apos : Char := Char.ofNat 39

/-- JavaScript whitespace, as matched by the regex class backslash-s and
removed by String.prototype.trim: tab, line feed, vertical tab, form feed,
carriage return, space, no-break space, the Unicode space separators, the
line and paragraph separators, and the byte order mark. -/
def isJsWs (c : Char) : Bool :=
  c == ' ' || c == Char.ofNat 9 || c == Char.ofNat 10 || c == Char.ofNat 11 ||
  c == Char.ofNat 12 || c == Char.ofNat 13 || c == Char.ofNat 160 ||
  c == Char.ofNat 0x1680 ||
  (0x2000 ≤ c.toNat && c.toNat ≤ 0x200A) || c == Char.ofNat 0x2028 ||
  c == Char.ofNat 0x2029 || c == Char.ofNat 0x202F || c == Char.ofNat 0x205F ||
  c == Char.ofNat 0x3000 || c == Char.ofNat 0xFEFF

/-- JavaScript String.prototype.split with a one-character separator:
splits the string at every occurrence of the separator, keeping empty
pieces, and always returns at least one piece. -/
def splitOnChar (c : Char) : Str → List Str
  | [] => [[]]
  | x :: xs =>
    if x = c then
      [] :: splitOnChar c xs
    else
      match splitOnChar c xs with
      | [] => [[x]]
      | r :: rs => (x :: r) :: rs

/-- Drop matching characters from the end of a list. -/
def dropWhileEnd (p : Char → Bool) (s : Str) : Str :=
  (s.reverse.dropWhile p).reverse

/-- JavaScript String.prototype.trim: remove whitespace from both ends. -/
def jsTrim (s : Str) : Str :=
  dropWhileEnd isJsWs (s.dropWhile isJsWs)

/-- Helper for the global regex replacement of whitespace runs by an
underscore: the flag records whether the previous character was part of a
whitespace run already replaced. -/
def collapseWsAux : Bool → Str → Str
  | _, [] => []
  | inWs, c :: cs =>
    if isJsWs c then
      if inWs then collapseWsAux true cs else '_' :: collapseWsAux true cs
    else
      c :: collapseWsAux false cs

/-- Replace every maximal run of whitespace by a single underscore, as the
regex replacement in the source does. -/
def collapseWs (s : Str) : Str := collapseWsAux false s

/-- Topic normalization from searchPapers step 6:
topic.toLowerCase().replace(whitespace-runs, underscore). -/
def normalizeTopic (topic : Str) : Str :=
  collapseWs (topic.map Char.toLower)

/-- Uppercase hexadecimal digit. -/
def hexDigitUpper (n : Nat) : Char :=
  if n < 10 then Char.ofNat (48 + n) else Char.ofNat (55 + n)

/-- Lowercase hexadecimal digit. -/
def hexDigitLower (n : Nat) : Char :=
  if n < 10 then Char.ofNat (48 + n) else Char.ofNat (87 + n)

/-- UTF-8 bytes of a code point. -/
def utf8Bytes (c : Char) : List Nat :=
  let n := c.toNat
  if n < 0x80 then [n]
  else if n < 0x800 then [0xC0 + n / 0x40, 0x80 + n % 0x40]
  else if n < 0x10000 then
    [0xE0 + n / 0x1000, 0x80 + (n / 0x40) % 0x40, 0x80 + n % 0x40]
  else
    [0xF0 + n / 0x40000, 0x80 + (n / 0x1000) % 0x40, 0x80 + (n / 0x40) % 0x40,
     0x80 + n % 0x40]

/-- Percent-encoding of one byte. -/
def pctByte (b : Nat) : Str :=
  ['%', hexDigitUpper (b / 16), hexDigitUpper (b % 16)]

/-- Concatenate a list of strings. -/
def strJoin : List Str → Str
  | [] => []
  | s :: rest => s ++ strJoin rest

/-- Characters left unescaped by encodeURIComponent. -/
def isUnreservedUri (c : Char) : Bool :=
  c.isAlphanum || c == '-' || c == '_' || c == '.' || c == '!' || c == '~' ||
  c == '*' || c == apos || c == '(' || c == ')'

/-- JavaScript encodeURIComponent: unreserved characters kept, all others
percent-encoded byte by byte in UTF-8. -/
def encodeURIComponent (s : Str) : Str :=
  strJoin (s.map fun c =>
    if isUnreservedUri c then [c] else strJoin ((utf8Bytes c).map pctByte))

/-- The arXiv query URL built by searchPapers step 1. -/
def apiUrl (topic : Str) (maxResults : Int) : Str :=
  S "http://export.arxiv.org/api/query?search_query=all:" ++
    encodeURIComponent topic ++
    S "&start=0&max_results=" ++ (toString maxResults).data ++
    S "&sortBy=relevance"

/-- One link element of a feed entry, as produced by the XML parser: the
attribute object carries an optional title attribute and an optional href
attribute. -/
structure LinkEl where
  titleAttr : Option Str
  href : Option Str
deriving DecidableEq

/-- One author element of a feed entry: the parser wraps the name in a
singleton list. -/
structure AuthorEl where
  name : List Str
deriving DecidableEq

/-- One entry of the parsed arXiv feed. The parser wraps the scalar fields
in singleton lists; the fields here are the first elements the source
reads with index zero. -/
structure FeedEntry where
  idUrl : Str
  title : Str
  summary : Str
  published : Str
  author : List AuthorEl
  link : List LinkEl
deriving DecidableEq

/-- The parsed feed: the entry key is absent when the feed has no entries,
which the source defaults to the empty list. -/
structure Feed where
  entry : Option (List FeedEntry)
deriving DecidableEq

/-- One stored paper record, with exactly the fields the source stores:
title, authors, summary, pdf_url, published — and no id field (the id is
the key of the enclosing JSON object, not a field of the record). -/
structure PaperInfo where
  title : Str
  authors : List Str
  summary : Str
  pdf_url : Str
  published : Str
deriving DecidableEq, Inhabited

/-- The value of one field of the serialized record object. -/
inductive JsonFieldVal
  | s (v : Str)
  | a (vs : List Str)
deriving DecidableEq

/-- The key-value pairs JSON.stringify emits for a stored record, in the
insertion order of the object literal in searchPapers step 5. -/
def paperInfoJson (p : PaperInfo) : List (Str × JsonFieldVal) :=
  [(S "title", JsonFieldVal.s p.title),
   (S "authors", JsonFieldVal.a p.authors),
   (S "summary", JsonFieldVal.s p.summary),
   (S "pdf_url", JsonFieldVal.s p.pdf_url),
   (S "published", JsonFieldVal.s p.published)]

/-- Field lookup in a serialized record object. -/
def lookupField (obj : List (Str × JsonFieldVal)) (k : Str) : Option JsonFieldVal :=
  (obj.find? fun q => q.1 == k).map Prod.snd

/-- The pdf link extraction of searchPapers step 5: the first link whose
title attribute is the string pdf, defaulting to an empty attribute
object, then its href defaulting to the empty string. -/
def findPdfHref (links : List LinkEl) : Str :=
  match links.find? (fun l => l.titleAttr == some (S "pdf")) with
  | some l => l.href.getD []
  | none => []

/-- Record extraction for one feed entry, searchPapers step 5: the id is
the last piece of the id URL split at slashes; title and summary are
trimmed; published is the piece before the first letter T; authors are
the first name of each author element in listing order. -/
def extractEntry (e : FeedEntry) : Str × PaperInfo :=
  ((splitOnChar '/' e.idUrl).getLastD [],
   { title := jsTrim e.title
     authors := e.author.map fun a => a.name.headD []
     summary := jsTrim e.summary
     pdf_url := findPdfHref e.link
     published := (splitOnChar 'T' e.published).headD [] })

/-- Assignment into a JavaScript object: an existing key keeps its
position and gets the new value, a new key is appended. -/
def objInsert : List (Str × PaperInfo) → Str → PaperInfo → List (Str × PaperInfo)
  | [], k, v => [(k, v)]
  | p :: rest, k, v =>
    if p.1 == k then (p.1, v) :: rest else p :: objInsert rest k v

/-- The papersInfo object built by the forEach of searchPapers step 5:
repeated assignment of each extracted pair into an initially empty
object. -/
def buildObject (pairs : List (Str × PaperInfo)) : List (Str × PaperInfo) :=
  pairs.foldl (fun o p => objInsert o p.1 p.2) []

/-- Content of a papers_info.json file: either valid JSON holding the
record mapping, or corrupt text on which JSON.parse throws. -/
inductive FileContent
  | corrupt
  | valid (records : List (Str × PaperInfo))
deriving DecidableEq

/-- State of the papers directory: whether the directory itself exists,
and for each topic directory (in listing order) the content of its
papers_info.json, or none when that file does not exist. -/
structure FsState where
  paperDirExists : Bool
  partitions : List (Str × Option FileContent)
deriving DecidableEq

/-- Effect of mkdirSync plus writeFileSync for a topic directory: an
existing directory gets its file replaced in place, a new directory is
appended to the listing. -/
def setAssoc : List (Str × Option FileContent) → Str → Option FileContent →
    List (Str × Option FileContent)
  | [], k, v => [(k, v)]
  | p :: rest, k, v =>
    if p.1 == k then (p.1, v) :: rest else p :: setAssoc rest k v

/-- The records stored for a partition key, when that directory exists and
its file holds valid JSON. -/
def storedRecords (st : FsState) (key : Str) : Option (List (Str × PaperInfo)) :=
  match st.partitions.find? (fun p => p.1 == key) with
  | some (_, some (FileContent.valid r)) => some r
  | _ => none

/-- Errors raised by the JavaScript runtime in the embedded code paths. -/
inductive JsError
  | upstreamUnavailable
  | malformedResponse
  | jsonParseError
  | enoent
deriving DecidableEq

/-- Result of the single HTTP round trip of searchPapers: the request can
fail at the transport, the body can fail to parse as XML, or it parses to
a feed. -/
inductive RemoteResult
  | networkError
  | badXml
  | ok (feed : Feed)
deriving DecidableEq

/-- Observable outcome of one searchPapers call: the returned id list or
the thrown error, the list of URLs requested from the remote endpoint,
and the file system state afterwards. -/
structure SearchOutcome where
  result : Except JsError (List Str)
  requests : List Str
  fs : FsState

/-- The search gateway, searchPapers from the source: builds the query
URL, performs the request unconditionally (no validation of maxResults),
parses the feed, extracts every entry, writes the whole partition for the
normalized topic, and returns the ids in feed order. Transport and parse
failures propagate as thrown errors. -/
def searchPapers (topic : Str) (maxResults : Int) (remote : RemoteResult)
    (st : FsState) : SearchOutcome :=
  match remote with
  | RemoteResult.networkError =>
    ⟨Except.error JsError.upstreamUnavailable, [apiUrl topic maxResults], st⟩
  | RemoteResult.badXml =>
    ⟨Except.error JsError.malformedResponse, [apiUrl topic maxResults], st⟩
  | RemoteResult.ok feed =>
    ⟨Except.ok (((feed.entry.getD []).map extractEntry).map Prod.fst),
     [apiUrl topic maxResults],
     ⟨true,
      setAssoc st.partitions (normalizeTopic topic)
        (some (FileContent.valid (buildObject ((feed.entry.getD []).map extractEntry))))⟩⟩

/-- Outcome of one lookup: the record found, or the not-found case that
the source renders as a message naming the id. -/
inductive LookupOutcome
  | found (info : PaperInfo)
  | notFound
deriving DecidableEq

/-- The directory scan of extractInfo: directories without a
papers_info.json are skipped; a file that exists is parsed — a corrupt
file makes JSON.parse throw, which propagates (nothing catches it); a
valid file is searched for the id. -/
def scanDirs (paperId : Str) : List (Str × Option FileContent) →
    Except JsError LookupOutcome
  | [] => Except.ok LookupOutcome.notFound
  | (_, file) :: rest =>
    match file with
    | none => scanDirs paperId rest
    | some FileContent.corrupt => Except.error JsError.jsonParseError
    | some (FileContent.valid data) =>
      match data.find? (fun q => q.1 == paperId) with
      | some q => Except.ok (LookupOutcome.found q.2)
      | none => scanDirs paperId rest

/-- The lookup service, extractInfo from the source, up to serialization:
readdirSync throws when the papers directory does not exist; otherwise
the directories are scanned in listing order. -/
def extractInfoCore (paperId : Str) (st : FsState) : Except JsError LookupOutcome :=
  if st.paperDirExists then scanDirs paperId st.partitions
  else Except.error JsError.enoent

/-- JSON string escaping as JSON.stringify performs it. -/
def escJsonChar (c : Char) : Str :=
  if c == '"' then ['\\', '"']
  else if c == '\\' then ['\\', '\\']
  else if c == Char.ofNat 8 then ['\\', 'b']
  else if c == Char.ofNat 9 then ['\\', 't']
  else if c == Char.ofNat 10 then ['\\', 'n']
  else if c == Char.ofNat 12 then ['\\', 'f']
  else if c == Char.ofNat 13 then ['\\', 'r']
  else if c.toNat < 32 then
    ['\\', 'u', '0', '0', hexDigitLower (c.toNat / 16), hexDigitLower (c.toNat % 16)]
  else [c]

/-- A JSON string literal for a string value. -/
def quoteJson (s : Str) : Str :=
  '"' :: strJoin (s.map escJsonChar) ++ ['"']

/-- Join strings with a separator between consecutive elements. -/
def joinSep (sep : Str) : List Str → Str
  | [] => []
  | [x] => x
  | x :: y :: rest => x ++ sep ++ joinSep sep (y :: rest)

/-- JSON.stringify of a string array nested at depth one with indent 2:
elements at four spaces, closing bracket at two. -/
def jsonArrayNested (xs : List Str) : Str :=
  match xs with
  | [] => S "[]"
  | _ =>
    S "[\n" ++ joinSep (S ",\n") (xs.map fun x => S "    " ++ quoteJson x) ++
      S "\n  ]"

/-- JSON.stringify of a stored record with indent 2, as extractInfo
returns it for a found paper. -/
def stringifyInfo (p : PaperInfo) : Str :=
  S "\x7b\n  \"title\": " ++ quoteJson p.title ++
  S ",\n  \"authors\": " ++ jsonArrayNested p.authors ++
  S ",\n  \"summary\": " ++ quoteJson p.summary ++
  S ",\n  \"pdf_url\": " ++ quoteJson p.pdf_url ++
  S ",\n  \"published\": " ++ quoteJson p.published ++
  S "\n\x7d"

/-- Head of the not-found message of extractInfo. -/
def notFoundHead : Str :=
  S "There" ++ [apos] ++ S "s no saved information related to paper "

/-- The not-found message of extractInfo, naming the requested id. -/
def notFoundMsg (paperId : Str) : Str :=
  notFoundHead ++ paperId ++ S "."

/-- The string extractInfo actually returns: the serialized record when
found, the not-found message otherwise. -/
def renderLookup (paperId : Str) : LookupOutcome → Str
  | LookupOutcome.found info => stringifyInfo info
  | LookupOutcome.notFound => notFoundMsg paperId

/-- The lookup service, extractInfo from the source, at the string level. -/
def extractInfo (paperId : Str) (st : FsState) : Except JsError Str :=
  (extractInfoCore paperId st).map (renderLookup paperId)

/-- Spec-side reading of the pdf-link clause, written from the words of
the specification: among the links of the entry, those marked as the PDF
variant are selected, the first one contributes its href, and the empty
string stands in when no such link is present. Compared against the
source extraction in the claim about entry extraction. -/
def specPdfVariantHref (links : List LinkEl) : Str :=
  match links.filter (fun l => l.titleAttr == some (S "pdf")) with
  | [] => []
  | l :: _ => l.href.getD []

/-- JavaScript values flowing through the tool adapter: strings, integer
numbers, undefined, and arrays of strings (the shape searchPapers
returns). -/
inductive JsValue
  | str (s : Str)
  | num (n : Int)
  | undef
  | arr (xs : List Str)
deriving DecidableEq

/-- JSON.stringify of a string array at top level with indent 2, as the
adapter serializes an array result. -/
def jsonArrayTop (xs : List Str) : Str :=
  match xs with
  | [] => S "[]"
  | _ =>
    S "[\n" ++ joinSep (S ",\n") (xs.map fun x => S "  " ++ quoteJson x) ++
      S "\n]"

/-- The result normalization of executeTool: object results (arrays here)
are serialized to JSON text, strings pass through unchanged, other
primitives are rendered as the text the console would show. -/
def serializeResult : JsValue → Str
  | JsValue.str s => s
  | JsValue.num n => (toString n).data
  | JsValue.undef => S "undefined"
  | JsValue.arr xs => jsonArrayTop xs

/-- The argument dispatch of executeTool: Object.values of the arguments
mapping, the values in key-insertion order, the keys discarded. -/
def executeToolDispatch (toolArgs : List (Str × JsValue)) : List JsValue :=
  toolArgs.map Prod.snd

/-- The positional parameter binding of the search_papers tool function:
the first positional value becomes the topic parameter (undefined when
missing), the second becomes maxResults, defaulting to 5. -/
def bindSearchPapersParams (vals : List JsValue) : JsValue × JsValue :=
  (vals.getD 0 JsValue.undef, vals.getD 1 (JsValue.num 5))

/-- The tool catalog adapter, executeTool from the source: an unknown
tool yields an in-band message; a known tool is invoked with the values
of the arguments mapping spread positionally, and its result is
normalized. Nothing catches a failure of the tool itself: a rejected
tool call propagates out of executeTool. -/
def executeTool (impls : Str → Option (List JsValue → Except JsError JsValue))
    (toolName : Str) (toolArgs : List (Str × JsValue)) : Except JsError Str :=
  match impls toolName with
  | none => Except.ok (S "Tool not found.")
  | some f => (f (executeToolDispatch toolArgs)).map serializeResult

/-- One item of the conversation history kept by processQuery. -/
inductive HistItem
  | user (content : Str)
  | toolCall (name : Str) (argsJson : Str) (callId : Str)
  | toolResult (callId : Str) (output : Str)
deriving DecidableEq

/-- The first output item of one model response: a plain text message or
a function-call request. -/
inductive ModelOut
  | message (text : Str)
  | functionCall (name : Str) (argsJson : Str) (callId : Str)
deriving DecidableEq

/-- Whether a model response is a function-call request. -/
def ModelOut.isFunctionCall : ModelOut → Bool
  | ModelOut.functionCall _ _ _ => true
  | ModelOut.message _ => false

/-- Outcome of one user turn: a final text answer, or a turn still inside
the tool loop after the observed number of round trips. -/
inductive TurnOutcome
  | answered (text : Str) (history : List HistItem)
  | pending (history : List HistItem)
deriving DecidableEq

/-- The while loop of processQuery. The loop in the source has no
iteration bound; the fuel argument is the number of tool round trips
after which the still-running loop is observed, so pending after n round
trips means the loop is still iterating at that point. A text response
ends the loop; a function call invokes the tool, appends the call and its
result to the history, and resubmits; a failing tool invocation is not
caught anywhere, so the thrown error aborts the turn. -/
def runLoop (model : List HistItem → ModelOut)
    (callTool : Str → Str → Except JsError Str) :
    Nat → List HistItem → ModelOut → Except JsError TurnOutcome
  | _, hist, ModelOut.message t => Except.ok (TurnOutcome.answered t hist)
  | 0, hist, ModelOut.functionCall _ _ _ => Except.ok (TurnOutcome.pending hist)
  | Nat.succ n, hist, ModelOut.functionCall name args callId =>
    match callTool name args with
    | Except.error e => Except.error e
    | Except.ok result =>
      runLoop model callTool n
        (hist ++ [HistItem.toolCall name args callId,
                  HistItem.toolResult callId result])
        (model (hist ++ [HistItem.toolCall name args callId,
                         HistItem.toolResult callId result]))

/-- The conversation loop for one user turn, processQuery from the
source: the user query is appended to a fresh history, the model is
consulted, and the loop runs on its response. -/
def processQuery (model : List HistItem → ModelOut)
    (callTool : Str → Str → Except JsError Str) (query : Str) (fuel : Nat) :
    Except JsError TurnOutcome :=
  runLoop model callTool fuel [HistItem.user query]
    (model [HistItem.user query])

/-- The local composition of loop and adapter: the tool-call arguments
text is parsed into an arguments mapping (the parse function models
JSON.parse on well-formed argument text) and handed to executeTool. -/
def localCallTool (impls : Str → Option (List JsValue → Except JsError JsValue))
    (parse : Str → List (Str × JsValue)) (name argsJson : Str) :
    Except JsError Str :=
  executeTool impls name (parse argsJson)

/-- Whether a turn ended in a final text answer. -/
def turnAnswered : Except JsError TurnOutcome → Bool
  | Except.ok (TurnOutcome.answered _ _) => true
  | _ => false

/-- Whether a turn aborted with a thrown error. -/
def turnFailed : Except JsError TurnOutcome → Bool
  | Except.error _ => true
  | _ => false

/-- Whether a lookup produced a found record. -/
def lookupFound : Except JsError LookupOutcome → Bool
  | Except.ok (LookupOutcome.found _) => true
  | _ => false

/-- The id field of the serialized record of a successful lookup, when
the lookup found a record and that record has an id field. -/
def foundRecordIdField : Except JsError LookupOutcome → Option JsonFieldVal
  | Except.ok (LookupOutcome.found info) => lookupField (paperInfoJson info) (S "id")
  | _ => none

/-- A sample feed entry without a pdf link, for concrete instances. -/
def sampleEntryA : FeedEntry :=
  ⟨S "http://arxiv.org/abs/1111.0001v1", S "First", S "Sum one",
   S "2020-01-02T03:04:05Z", [⟨[S "Ann"]⟩], []⟩

/-- A sample feed entry with a pdf link, for concrete instances. -/
def sampleEntryB : FeedEntry :=
  ⟨S "http://arxiv.org/abs/2222.0002v2", S "Second", S "Sum two",
   S "2021-05-06T07:08:09Z", [⟨[S "Bob"]⟩],
   [⟨some (S "pdf"), some (S "http://arxiv.org/pdf/2222.0002v2")⟩]⟩

/-- A sample stored record, for concrete instances. -/
def sampleRecord : PaperInfo :=
  ⟨S "T", [S "A"], S "Sm", [], S "2020-01-01"⟩

theorem splitOnChar_ne_nil (c : Char) (s : Str) : splitOnChar c s ≠ [] := by
  induction s with
  | nil => simp [splitOnChar]
  | cons x xs ih =>
    simp only [splitOnChar]
    by_cases h : x = c
    · simp [h]
    · simp only [h, if_false]
      cases hxs : splitOnChar c xs with
      | nil => simp
      | cons r rs => simp

theorem splitOnChar_append_sep (c : Char) (u v : Str) :
    splitOnChar c (u ++ c :: v) = splitOnChar c u ++ splitOnChar c v := by
  induction u with
  | nil => simp [splitOnChar]
  | cons x xs ih =>
    by_cases h : x = c
    · subst h
      simp [splitOnChar, ih]
    · simp only [List.cons_append, splitOnChar, h, if_false, List.append_eq]
      rw [ih]
      cases hxs : splitOnChar c xs with
      | nil => exact absurd hxs (splitOnChar_ne_nil c xs)
      | cons r rs => simp

theorem splitOnChar_of_not_mem (c : Char) (v : Str) (h : c ∉ v) :
    splitOnChar c v = [v] := by
  induction v with
  | nil => rfl
  | cons x xs ih =>
    have hx : x ≠ c := fun he => h (he ▸ List.mem_cons_self x xs)
    have hxs : c ∉ xs := fun hm => h (List.mem_cons_of_mem x hm)
    simp [splitOnChar, hx, ih hxs]

theorem splitOnChar_getLastD (pre seg : Str) (hseg : '/' ∉ seg) :
    (splitOnChar '/' (pre ++ '/' :: seg)).getLastD [] = seg := by
  rw [splitOnChar_append_sep, splitOnChar_of_not_mem _ _ hseg]
  exact List.getLastD_concat _ _ _

theorem splitOnChar_headD (c : Char) (u v : Str) (hu : c ∉ u) :
    (splitOnChar c (u ++ c :: v)).headD [] = u := by
  rw [splitOnChar_append_sep, splitOnChar_of_not_mem _ _ hu]
  rfl

theorem splitOnChar_headD_self (c : Char) (u : Str) (hu : c ∉ u) :
    (splitOnChar c u).headD [] = u := by
  rw [splitOnChar_of_not_mem _ _ hu]
  rfl

theorem dropWhile_append_of_all {p : Char → Bool} {a : Str} (b : Str)
    (h : ∀ x ∈ a, p x = true) :
    List.dropWhile p (a ++ b) = List.dropWhile p b := by
  induction a with
  | nil => rfl
  | cons x xs ih =>
    have hx : p x = true := h x (List.mem_cons_self x xs)
    simp only [List.cons_append, List.dropWhile, hx]
    exact ih fun y hy => h y (List.mem_cons_of_mem x hy)

theorem dropWhile_cons_of_neg {p : Char → Bool} {x : Char} (xs : Str)
    (h : p x = false) : List.dropWhile p (x :: xs) = x :: xs := by
  simp [List.dropWhile, h]

theorem jsTrim_decomp (a1 t a2 : Str)
    (h1 : ∀ x ∈ a1, isJsWs x = true) (h2 : ∀ x ∈ a2, isJsWs x = true)
    (hh : t.head?.all (fun x => !isJsWs x) = true)
    (hl : t.getLast?.all (fun x => !isJsWs x) = true) :
    jsTrim (a1 ++ t ++ a2) = t := by
  unfold jsTrim
  rw [List.append_assoc, dropWhile_append_of_all (t ++ a2) h1]
  cases t with
  | nil =>
    simp only [List.nil_append]
    rw [List.dropWhile_eq_nil_iff.mpr h2]
    rfl
  | cons x xs =>
    have hx : isJsWs x = false := by
      simpa using hh
    rw [List.cons_append, dropWhile_cons_of_neg (xs ++ a2) hx, ← List.cons_append]
    unfold dropWhileEnd
    rw [List.reverse_append]
    have h2r : ∀ y ∈ a2.reverse, isJsWs y = true := by
      intro y hy
      exact h2 y (List.mem_reverse.mp hy)
    rw [dropWhile_append_of_all _ h2r]
    have hlast : ((x :: xs).reverse).head?.all (fun y => !isJsWs y) = true := by
      rw [List.head?_reverse]
      exact hl
    cases hrev : (x :: xs).reverse with
    | nil => simp at hrev
    | cons y ys =>
      have hy : isJsWs y = false := by
        rw [hrev] at hlast
        simpa using hlast
      rw [dropWhile_cons_of_neg ys hy]
      rw [← hrev, List.reverse_reverse]

theorem findPdfHref_eq_spec (links : List LinkEl) :
    findPdfHref links = specPdfVariantHref links := by
  induction links with
  | nil => rfl
  | cons l rest ih =>
    unfold findPdfHref specPdfVariantHref
    by_cases h : (l.titleAttr == some (S "pdf")) = true
    · simp [List.find?, List.filter, h]
    · have h2 : (l.titleAttr == some (S "pdf")) = false := by
        simpa using h
      simp only [List.find?, List.filter, h2]
      exact ih

theorem find?_setAssoc_self (l : List (Str × Option FileContent)) (k : Str)
    (v : Option FileContent) :
    ((setAssoc l k v).find? (fun p => p.1 == k)).map Prod.snd = some v := by
  induction l with
  | nil => simp [setAssoc, List.find?]
  | cons p rest ih =>
    by_cases h : (p.1 == k) = true
    · simp [setAssoc, h, List.find?]
    · have h2 : (p.1 == k) = false := by simpa using h
      simp only [setAssoc, h2, Bool.false_eq_true, if_false, List.find?, h2]
      exact ih

theorem storedRecords_setAssoc (ps : List (Str × Option FileContent)) (k : Str)
    (r : List (Str × PaperInfo)) :
    storedRecords ⟨true, setAssoc ps k (some (FileContent.valid r))⟩ k = some r := by
  unfold storedRecords
  have h := find?_setAssoc_self ps k (some (FileContent.valid r))
  cases hf : (setAssoc ps k (some (FileContent.valid r))).find? (fun p => p.1 == k) with
  | none => rw [hf] at h; simp at h
  | some q =>
    rw [hf] at h
    obtain ⟨q1, q2⟩ := q
    have h2 : q2 = some (FileContent.valid r) := by
      simpa using h
    subst h2
    rfl

theorem setAssoc_mem_self (l : List (Str × Option FileContent)) (k : Str)
    (v : Option FileContent) : ∃ p ∈ setAssoc l k v, p.2 = v := by
  induction l with
  | nil => exact ⟨(k, v), by simp [setAssoc]⟩
  | cons p rest ih =>
    by_cases h : (p.1 == k) = true
    · exact ⟨(p.1, v), by simp [setAssoc, h]⟩
    · have h2 : (p.1 == k) = false := by simpa using h
      obtain ⟨q, hq, hqv⟩ := ih
      exact ⟨q, by simp [setAssoc, h2, hq], hqv⟩

theorem setAssoc_no_corrupt (l : List (Str × Option FileContent)) (k : Str)
    (v : Option FileContent) (hl : ∀ p ∈ l, p.2 ≠ some FileContent.corrupt)
    (hv : v ≠ some FileContent.corrupt) :
    ∀ p ∈ setAssoc l k v, p.2 ≠ some FileContent.corrupt := by
  induction l with
  | nil =>
    intro p hp
    simp only [setAssoc, List.mem_singleton] at hp
    subst hp
    exact hv
  | cons q rest ih =>
    intro p hp
    by_cases h : (q.1 == k) = true
    · simp only [setAssoc, h, if_true, List.mem_cons] at hp
      rcases hp with hp | hp
      · subst hp; exact hv
      · exact hl p (List.mem_cons_of_mem q hp)
    · have h2 : (q.1 == k) = false := by simpa using h
      simp only [setAssoc, h2, Bool.false_eq_true, if_false, List.mem_cons] at hp
      rcases hp with hp | hp
      · rw [hp]
        exact hl q (List.mem_cons_self q rest)
      · exact ih (fun x hx => hl x (List.mem_cons_of_mem q hx)) p hp

theorem objInsert_mem_key (o : List (Str × PaperInfo)) (k : Str) (v : PaperInfo) :
    ∃ q ∈ objInsert o k v, q.1 = k := by
  induction o with
  | nil => exact ⟨(k, v), by simp [objInsert]⟩
  | cons p rest ih =>
    by_cases h : (p.1 == k) = true
    · refine ⟨(p.1, v), by simp [objInsert, h], ?_⟩
      simpa using h
    · have h2 : (p.1 == k) = false := by simpa using h
      obtain ⟨q, hq, hqk⟩ := ih
      exact ⟨q, by simp [objInsert, h2, hq], hqk⟩

theorem objInsert_mem_preserve (o : List (Str × PaperInfo)) (k : Str)
    (v : PaperInfo) (id : Str) (h : ∃ q ∈ o, q.1 = id) :
    ∃ q ∈ objInsert o k v, q.1 = id := by
  induction o with
  | nil => simp at h
  | cons p rest ih =>
    obtain ⟨q, hq, hqid⟩ := h
    by_cases hpk : (p.1 == k) = true
    · simp only [List.mem_cons] at hq
      rcases hq with hq | hq
      · subst hq
        exact ⟨(q.1, v), by simp [objInsert, hpk], hqid⟩
      · exact ⟨q, by simp [objInsert, hpk, hq], hqid⟩
    · have h2 : (p.1 == k) = false := by simpa using hpk
      simp only [List.mem_cons] at hq
      rcases hq with hq | hq
      · subst hq
        exact ⟨q, by simp [objInsert, h2], hqid⟩
      · obtain ⟨q2, hq2, hq2id⟩ := ih ⟨q, hq, hqid⟩
        exact ⟨q2, by simp [objInsert, h2, hq2], hq2id⟩

theorem buildObject_mem_key (pairs : List (Str × PaperInfo)) (id : Str)
    (h : id ∈ pairs.map Prod.fst) :
    ∃ q ∈ buildObject pairs, q.1 = id := by
  unfold buildObject
  suffices hgen : ∀ acc : List (Str × PaperInfo),
      (id ∈ pairs.map Prod.fst ∨ ∃ q ∈ acc, q.1 = id) →
      ∃ q ∈ pairs.foldl (fun o p => objInsert o p.1 p.2) acc, q.1 = id by
    exact hgen [] (Or.inl h)
  clear h
  induction pairs with
  | nil =>
    intro acc hacc
    rcases hacc with hacc | hacc
    · simp at hacc
    · simpa using hacc
  | cons p rest ih =>
    intro acc hacc
    simp only [List.foldl_cons]
    apply ih
    rcases hacc with hacc | hacc
    · simp only [List.map_cons, List.mem_cons] at hacc
      rcases hacc with hacc | hacc
      · exact Or.inr (hacc ▸ objInsert_mem_key acc p.1 p.2)
      · exact Or.inl hacc
    · exact Or.inr (objInsert_mem_preserve acc p.1 p.2 id hacc)

theorem scanDirs_found (id : Str) (l : List (Str × Option FileContent))
    (hclean : ∀ p ∈ l, p.2 ≠ some FileContent.corrupt)
    (hhit : ∃ p ∈ l, ∃ r, p.2 = some (FileContent.valid r) ∧ ∃ q ∈ r, q.1 = id) :
    lookupFound (scanDirs id l) = true := by
  induction l with
  | nil => simp at hhit
  | cons p rest ih =>
    obtain ⟨w, hw, r, hwr, hqr⟩ := hhit
    obtain ⟨p1, p2⟩ := p
    simp only [List.mem_cons] at hw
    rcases hw with hw | hw
    · subst hw
      simp only at hwr
      subst hwr
      simp only [scanDirs]
      have : (r.find? (fun q => q.1 == id)).isSome := by
        rw [List.find?_isSome]
        obtain ⟨q, hq, hqid⟩ := hqr
        exact ⟨q, hq, by simpa using hqid⟩
      cases hf : r.find? (fun q => q.1 == id) with
      | none => rw [hf] at this; simp at this
      | some q => simp [lookupFound]
    · cases hp2 : p2 with
      | none =>
        simp only [scanDirs]
        exact ih (fun x hx => hclean x (List.mem_cons_of_mem _ hx))
          ⟨w, hw, r, hwr, hqr⟩
      | some fc =>
        cases fc with
        | corrupt =>
          exact absurd (hp2 ▸ rfl)
            (hclean (p1, p2) (List.mem_cons_self _ _))
        | valid data =>
          simp only [scanDirs]
          cases hf : data.find? (fun q => q.1 == id) with
          | none =>
            exact ih (fun x hx => hclean x (List.mem_cons_of_mem _ hx))
              ⟨w, hw, r, hwr, hqr⟩
          | some q => simp [lookupFound]

theorem scanDirs_notFound (id : Str) (l : List (Str × Option FileContent))
    (hclean : ∀ p ∈ l, p.2 ≠ some FileContent.corrupt)
    (habsent : ∀ p ∈ l, ∀ r, p.2 = some (FileContent.valid r) →
      r.find? (fun q => q.1 == id) = none) :
    scanDirs id l = Except.ok LookupOutcome.notFound := by
  induction l with
  | nil => rfl
  | cons p rest ih =>
    obtain ⟨p1, p2⟩ := p
    cases hp2 : p2 with
    | none =>
      simp only [scanDirs]
      exact ih (fun x hx => hclean x (List.mem_cons_of_mem _ hx))
        (fun x hx => habsent x (List.mem_cons_of_mem _ hx))
    | some fc =>
      cases fc with
      | corrupt =>
        exact absurd (hp2 ▸ rfl) (hclean (p1, p2) (List.mem_cons_self _ _))
      | valid data =>
        have hf := habsent (p1, p2) (List.mem_cons_self _ _) data (hp2 ▸ rfl)
        simp only [scanDirs, hf]
        exact ih (fun x hx => hclean x (List.mem_cons_of_mem _ hx))
          (fun x hx => habsent x (List.mem_cons_of_mem _ hx))

theorem scanDirs_corrupt_fatal (id : Str) (l1 : List (Str × Option FileContent))
    (d : Str) (rest : List (Str × Option FileContent))
    (hclean : ∀ p ∈ l1, p.2 ≠ some FileContent.corrupt)
    (hmiss : ∀ p ∈ l1, ∀ r, p.2 = some (FileContent.valid r) →
      r.find? (fun q => q.1 == id) = none) :
    scanDirs id (l1 ++ (d, some FileContent.corrupt) :: rest) =
      Except.error JsError.jsonParseError := by
  induction l1 with
  | nil => rfl
  | cons p l1t ih =>
    obtain ⟨p1, p2⟩ := p
    cases hp2 : p2 with
    | none =>
      simp only [List.cons_append, scanDirs]
      exact ih (fun x hx => hclean x (List.mem_cons_of_mem _ hx))
        (fun x hx => hmiss x (List.mem_cons_of_mem _ hx))
    | some fc =>
      cases fc with
      | corrupt =>
        exact absurd (hp2 ▸ rfl) (hclean (p1, p2) (List.mem_cons_self _ _))
      | valid data =>
        have hf := hmiss (p1, p2) (List.mem_cons_self _ _) data (hp2 ▸ rfl)
        simp only [List.cons_append, scanDirs, hf]
        exact ih (fun x hx => hclean x (List.mem_cons_of_mem _ hx))
          (fun x hx => hmiss x (List.mem_cons_of_mem _ hx))

theorem runLoop_not_answered (model : List HistItem → ModelOut)
    (callTool : Str → Str → Except JsError Str)
    (hm : ∀ hist, (model hist).isFunctionCall = true) :
    ∀ (fuel : Nat) (hist : List HistItem) (resp : ModelOut),
      resp.isFunctionCall = true →
      turnAnswered (runLoop model callTool fuel hist resp) = false := by
  intro fuel
  induction fuel with
  | zero =>
    intro hist resp hresp
    cases resp with
    | message t => simp [ModelOut.isFunctionCall] at hresp
    | functionCall name args callId => rfl
  | succ n ih =>
    intro hist resp hresp
    cases resp with
    | message t => simp [ModelOut.isFunctionCall] at hresp
    | functionCall name args callId =>
      simp only [runLoop]
      cases hc : callTool name args with
      | error e => rfl
      | ok result => exact ih _ _ (hm _)

theorem lookupField_paperInfoJson_id (p : PaperInfo) :
    lookupField (paperInfoJson p) (S "id") = none := by
  rfl

theorem foundRecordIdField_none (r : Except JsError LookupOutcome) :
    foundRecordIdField r = none := by
  cases r with
  | error e => rfl
  | ok o =>
    cases o with
    | notFound => rfl
    | found info => exact lookupField_paperInfoJson_id info

/-- C3 amended: searchPapers performs no validation of maxResults: for
every maxResults below one the remote query is still issued (exactly one
request, carrying that maxResults in the URL), and when the remote
responds with a parsed feed the partition for the normalized topic is
still written. -/
theorem c3_no_clamping (topic : Str) (m : Int) (remote : RemoteResult)
    (st : FsState) (feed : Feed) (h : m < 1) :
    (searchPapers topic m remote st).requests = [apiUrl topic m] ∧
    storedRecords (searchPapers topic m (RemoteResult.ok feed) st).fs
      (normalizeTopic topic)
      = some (buildObject ((feed.entry.getD []).map extractEntry)) := by
  constructor
  · cases remote <;> rfl
  · exact storedRecords_setAssoc _ _ _

/-- C3 counterexample: search with a zero maxResults against an empty
store is not rejected: the remote request is issued, the call returns the
empty id list, and an empty partition is written. -/
theorem c3_counterexample :
    (searchPapers (S "topic") 0 (RemoteResult.ok ⟨some []⟩) ⟨false, []⟩).requests
      = [apiUrl (S "topic") 0] ∧
    (searchPapers (S "topic") 0 (RemoteResult.ok ⟨some []⟩) ⟨false, []⟩).result
      = Except.ok [] ∧
    storedRecords (searchPapers (S "topic") 0 (RemoteResult.ok ⟨some []⟩)
      ⟨false, []⟩).fs (S "topic") = some [] :=
  ⟨rfl, rfl, rfl⟩

/-- C3 witness: the amended statement at maxResults minus three. -/
theorem c3_witness :
    (searchPapers (S "topic") (-3) RemoteResult.networkError ⟨false, []⟩).requests
      = [apiUrl (S "topic") (-3)] ∧
    storedRecords (searchPapers (S "topic") (-3) (RemoteResult.ok ⟨none⟩)
      ⟨false, []⟩).fs (normalizeTopic (S "topic"))
      = some (buildObject (((⟨none⟩ : Feed).entry.getD []).map extractEntry)) :=
  c3_no_clamping (S "topic") (-3) RemoteResult.networkError ⟨false, []⟩ ⟨none⟩
    (by decide)

/-- C8: a parsed feed with zero entries is not an error: the search
returns the empty id list and writes an empty partition for the
normalized topic. -/
theorem c8_zero_entries_not_error (topic : Str) (m : Int) (st : FsState)
    (feed : Feed) (h : feed.entry.getD [] = []) :
    (searchPapers topic m (RemoteResult.ok feed) st).result = Except.ok [] ∧
    storedRecords (searchPapers topic m (RemoteResult.ok feed) st).fs
      (normalizeTopic topic) = some [] := by
  constructor
  · show Except.ok (((feed.entry.getD []).map extractEntry).map Prod.fst)
      = Except.ok []
    rw [h]
    rfl
  · show storedRecords ⟨true, setAssoc st.partitions (normalizeTopic topic)
      (some (FileContent.valid (buildObject ((feed.entry.getD []).map extractEntry))))⟩
      (normalizeTopic topic) = some []
    rw [h]
    exact storedRecords_setAssoc _ _ _

/-- C8 witness: a feed without an entry key against an empty store. -/
theorem c8_witness :
    (searchPapers (S "nothing here") 5 (RemoteResult.ok ⟨none⟩) ⟨false, []⟩).result
      = Except.ok [] ∧
    storedRecords (searchPapers (S "nothing here") 5 (RemoteResult.ok ⟨none⟩)
      ⟨false, []⟩).fs (normalizeTopic (S "nothing here")) = some [] :=
  c8_zero_entries_not_error (S "nothing here") 5 ⟨false, []⟩ ⟨none⟩ rfl

/-- C6: two successive searches whose topics normalize to the same
partition key leave the partition holding exactly the records extracted
from the second result set: the whole partition is overwritten, nothing
of the first search survives. -/
theorem c6_overwrite_no_merge (t1 t2 : Str) (m1 m2 : Int) (f1 f2 : Feed)
    (st : FsState) (hn : normalizeTopic t1 = normalizeTopic t2) :
    storedRecords
      (searchPapers t2 m2 (RemoteResult.ok f2)
        (searchPapers t1 m1 (RemoteResult.ok f1) st).fs).fs
      (normalizeTopic t2)
      = some (buildObject ((f2.entry.getD []).map extractEntry)) :=
  storedRecords_setAssoc _ _ _

/-- C6 witness: two searches on differently written forms of the same
topic; the partition afterwards holds exactly the second result set. -/
theorem c6_witness :
    storedRecords
      (searchPapers (S "quantum  computing") 1 (RemoteResult.ok ⟨some [sampleEntryB]⟩)
        (searchPapers (S "Quantum Computing") 1 (RemoteResult.ok ⟨some [sampleEntryA]⟩)
          ⟨false, []⟩).fs).fs
      (normalizeTopic (S "quantum  computing"))
      = some (buildObject (((⟨some [sampleEntryB]⟩ : Feed).entry.getD []).map extractEntry)) :=
  c6_overwrite_no_merge (S "Quantum Computing") (S "quantum  computing") 1 1
    ⟨some [sampleEntryA]⟩ ⟨some [sampleEntryB]⟩ ⟨false, []⟩ rfl

/-- C4 amended: against a store whose existing partition files all parse,
every id returned by a successful search is found by a lookup immediately
afterwards (the lookup yields a record, not the not-found outcome), but
the stored record carries no id field at all: the requested id is the key
of the partition object, not a field of the record, so the claimed id
field equal to the requested identifier does not exist. -/
theorem c4_round_trip_found_but_no_id_field (topic : Str) (m : Int)
    (feed : Feed) (st : FsState) (ids : List Str) (id : Str)
    (hclean : ∀ p ∈ st.partitions, p.2 ≠ some FileContent.corrupt)
    (hres : (searchPapers topic m (RemoteResult.ok feed) st).result = Except.ok ids)
    (hid : id ∈ ids) :
    lookupFound (extractInfoCore id
      (searchPapers topic m (RemoteResult.ok feed) st).fs) = true ∧
    foundRecordIdField (extractInfoCore id
      (searchPapers topic m (RemoteResult.ok feed) st).fs) = none := by
  refine ⟨?_, foundRecordIdField_none _⟩
  have hids : ((feed.entry.getD []).map extractEntry).map Prod.fst = ids :=
    Except.ok.inj hres
  rw [← hids] at hid
  show lookupFound (extractInfoCore id ⟨true,
    setAssoc st.partitions (normalizeTopic topic)
      (some (FileContent.valid (buildObject ((feed.entry.getD []).map extractEntry))))⟩) = true
  unfold extractInfoCore
  simp only [if_true]
  apply scanDirs_found
  · exact setAssoc_no_corrupt st.partitions (normalizeTopic topic) _ hclean
      (by simp)
  · obtain ⟨p, hp, hpv⟩ := setAssoc_mem_self st.partitions (normalizeTopic topic)
      (some (FileContent.valid (buildObject ((feed.entry.getD []).map extractEntry))))
    exact ⟨p, hp, buildObject ((feed.entry.getD []).map extractEntry), hpv,
      buildObject_mem_key _ id hid⟩

/-- C4 counterexample: a concrete search returns one id; the lookup right
afterwards finds a record, but that record has no id field, so it cannot
equal the requested identifier. -/
theorem c4_counterexample :
    (searchPapers (S "quantum") 1 (RemoteResult.ok ⟨some [sampleEntryB]⟩)
      ⟨false, []⟩).result = Except.ok [S "2222.0002v2"] ∧
    lookupFound (extractInfoCore (S "2222.0002v2")
      (searchPapers (S "quantum") 1 (RemoteResult.ok ⟨some [sampleEntryB]⟩)
        ⟨false, []⟩).fs) = true ∧
    foundRecordIdField (extractInfoCore (S "2222.0002v2")
      (searchPapers (S "quantum") 1 (RemoteResult.ok ⟨some [sampleEntryB]⟩)
        ⟨false, []⟩).fs) = none ∧
    foundRecordIdField (extractInfoCore (S "2222.0002v2")
      (searchPapers (S "quantum") 1 (RemoteResult.ok ⟨some [sampleEntryB]⟩)
        ⟨false, []⟩).fs) ≠ some (JsonFieldVal.s (S "2222.0002v2")) :=
  ⟨rfl, rfl, rfl, fun h => Option.noConfusion h⟩

/-- C4 witness: the amended statement at a concrete search and id. -/
theorem c4_witness :
    lookupFound (extractInfoCore (S "1111.0001v1")
      (searchPapers (S "history") 2 (RemoteResult.ok ⟨some [sampleEntryA]⟩)
        ⟨false, []⟩).fs) = true ∧
    foundRecordIdField (extractInfoCore (S "1111.0001v1")
      (searchPapers (S "history") 2 (RemoteResult.ok ⟨some [sampleEntryA]⟩)
        ⟨false, []⟩).fs) = none :=
  c4_round_trip_found_but_no_id_field (S "history") 2 ⟨some [sampleEntryA]⟩
    ⟨false, []⟩ [S "1111.0001v1"] (S "1111.0001v1")
    (by simp) rfl (by decide)

/-- C5 amended: a corrupt partition file is fatal to the scan, not
skipped: when the directories before it either lack a papers_info.json
(those are skipped) or hold valid files without the id, the lookup
propagates the JSON parse error and never reaches the later partitions. -/
theorem c5_corrupt_partition_fatal (id d : Str)
    (l1 rest : List (Str × Option FileContent)) (st : FsState)
    (hdir : st.paperDirExists = true)
    (hparts : st.partitions = l1 ++ (d, some FileContent.corrupt) :: rest)
    (hclean : ∀ p ∈ l1, p.2 ≠ some FileContent.corrupt)
    (hmiss : ∀ p ∈ l1, ∀ r, p.2 = some (FileContent.valid r) →
      r.find? (fun q => q.1 == id) = none) :
    extractInfoCore id st = Except.error JsError.jsonParseError := by
  unfold extractInfoCore
  rw [hdir, hparts, if_pos rfl]
  exact scanDirs_corrupt_fatal id l1 d rest hclean hmiss

/-- C5 counterexample: a store whose first partition is corrupt and whose
second partition holds the requested record; the lookup fails with the
parse error instead of skipping the corrupt partition and finding the
record. -/
theorem c5_counterexample :
    extractInfoCore (S "xyz")
      ⟨true, [(S "topic_a", some FileContent.corrupt),
              (S "topic_b", some (FileContent.valid [(S "xyz", sampleRecord)]))]⟩
      = Except.error JsError.jsonParseError ∧
    storedRecords
      ⟨true, [(S "topic_a", some FileContent.corrupt),
              (S "topic_b", some (FileContent.valid [(S "xyz", sampleRecord)]))]⟩
      (S "topic_b") = some [(S "xyz", sampleRecord)] :=
  ⟨rfl, rfl⟩

/-- C5 witness: the amended statement at a concrete store with a skipped
file-less directory, then a corrupt partition, then the record. -/
theorem c5_witness :
    extractInfoCore (S "xyz")
      ⟨true, [(S "empty_dir", none),
              (S "bad", some FileContent.corrupt),
              (S "good", some (FileContent.valid [(S "xyz", sampleRecord)]))]⟩
      = Except.error JsError.jsonParseError :=
  c5_corrupt_partition_fatal (S "xyz") (S "bad") [(S "empty_dir", none)]
    [(S "good", some (FileContent.valid [(S "xyz", sampleRecord)]))]
    ⟨true, [(S "empty_dir", none),
            (S "bad", some FileContent.corrupt),
            (S "good", some (FileContent.valid [(S "xyz", sampleRecord)]))]⟩
    rfl rfl (by decide)
    (by
      intro p hp r hr
      rw [List.mem_singleton] at hp
      subst hp
      exact absurd hr (by simp))

/-- C7 amended: when the papers directory exists and every partition file
that exists parses as valid JSON, the lookup of an id absent from every
partition does not throw: it returns the not-found message, which names
the requested id between a fixed head and a trailing period. -/
theorem c7_lookup_not_found_guarded (id : Str) (st : FsState)
    (hdir : st.paperDirExists = true)
    (hclean : ∀ p ∈ st.partitions, p.2 ≠ some FileContent.corrupt)
    (habsent : ∀ p ∈ st.partitions, ∀ r, p.2 = some (FileContent.valid r) →
      r.find? (fun q => q.1 == id) = none) :
    extractInfo id st = Except.ok (notFoundMsg id) ∧
    notFoundMsg id = notFoundHead ++ id ++ S "." := by
  refine ⟨?_, rfl⟩
  unfold extractInfo extractInfoCore
  rw [hdir, if_pos rfl, scanDirs_notFound id st.partitions hclean habsent]
  rfl

/-- C7 counterexample: against a store whose papers directory was never
created (no search ever succeeded), the lookup throws instead of
returning the not-found message; against a populated store with a corrupt
partition it throws the parse error. -/
theorem c7_counterexample :
    extractInfo (S "nonexistent-id") ⟨false, []⟩ = Except.error JsError.enoent ∧
    extractInfo (S "nonexistent-id")
      ⟨true, [(S "t", some FileContent.corrupt)]⟩
      = Except.error JsError.jsonParseError :=
  ⟨rfl, rfl⟩

/-- C7 witness: the amended statement against a populated, healthy store
missing the id. -/
theorem c7_witness :
    extractInfo (S "nonexistent-id")
      ⟨true, [(S "quantum_computing", some (FileContent.valid [(S "1111.0001v1", sampleRecord)])),
              (S "empty_dir", none)]⟩
      = Except.ok (notFoundMsg (S "nonexistent-id")) ∧
    notFoundMsg (S "nonexistent-id")
      = notFoundHead ++ S "nonexistent-id" ++ S "." :=
  c7_lookup_not_found_guarded (S "nonexistent-id")
    ⟨true, [(S "quantum_computing", some (FileContent.valid [(S "1111.0001v1", sampleRecord)])),
            (S "empty_dir", none)]⟩
    rfl (by decide)
    (by
      intro p hp r hr
      simp only [List.mem_cons, List.mem_singleton] at hp
      rcases hp with hp | hp
      · subst hp
        have h2 := FileContent.valid.inj (Option.some.inj hr)
        subst h2
        rfl
      · rcases hp with hp | hp
        · subst hp
          exact absurd hr (by simp)
        · simp at hp)

/-- C1 amended: the conversation loop has no iteration cap and no
ToolLoopExceeded failure: with a model that always answers with a
tool-call request, processQuery never reaches a text answer — after any
number of tool round trips the turn is still unfinished. -/
theorem c1_tool_loop_never_terminates (model : List HistItem → ModelOut)
    (callTool : Str → Str → Except JsError Str) (query : Str) (fuel : Nat)
    (hm : ∀ hist, (model hist).isFunctionCall = true) :
    turnAnswered (processQuery model callTool query fuel) = false :=
  runLoop_not_answered model callTool hm fuel _ _ (hm _)

/-- C1 counterexample: a scripted model that always returns a tool-call
request; after ten tool round trips — beyond the recommended default
bound of five — the loop has neither stopped with any failure (there is
no ToolLoopExceeded in the code) nor produced an answer: it is still
iterating. -/
theorem c1_counterexample :
    turnAnswered (processQuery
      (fun _ => ModelOut.functionCall (S "search_papers") (S "\x7b\x7d") (S "c1"))
      (fun _ _ => Except.ok (S "ok")) (S "hello") 10) = false ∧
    turnFailed (processQuery
      (fun _ => ModelOut.functionCall (S "search_papers") (S "\x7b\x7d") (S "c1"))
      (fun _ _ => Except.ok (S "ok")) (S "hello") 10) = false :=
  ⟨rfl, rfl⟩

/-- C1 witness: the amended statement at a scripted always-tool-calling
model, after fifty round trips. -/
theorem c1_witness :
    turnAnswered (processQuery
      (fun _ => ModelOut.functionCall (S "extract_info") (S "\x7b\x7d") (S "call_7"))
      (fun _ _ => Except.ok (S "done")) (S "find papers") 50) = false :=
  c1_tool_loop_never_terminates
    (fun _ => ModelOut.functionCall (S "extract_info") (S "\x7b\x7d") (S "call_7"))
    (fun _ _ => Except.ok (S "done")) (S "find papers") 50 (fun _ => rfl)

/-- C2 amended: a tool invocation that fails is not caught at the tool
catalog adapter boundary: executeTool propagates the rejection, so the
turn aborts with the uncaught error — no tool-result entry carrying an
error description is appended and the model is not consulted again. -/
theorem c2_tool_failure_uncaught
    (impls : Str → Option (List JsValue → Except JsError JsValue))
    (parse : Str → List (Str × JsValue)) (model : List HistItem → ModelOut)
    (query name argsJson callId : Str) (fuel : Nat)
    (f : List JsValue → Except JsError JsValue) (e : JsError)
    (hm : model [HistItem.user query] = ModelOut.functionCall name argsJson callId)
    (hf : impls name = some f)
    (he : f (executeToolDispatch (parse argsJson)) = Except.error e) :
    processQuery model (localCallTool impls parse) query (fuel + 1)
      = Except.error e := by
  have hcall : localCallTool impls parse name argsJson = Except.error e := by
    unfold localCallTool executeTool
    rw [hf]
    show Except.map serializeResult (f (executeToolDispatch (parse argsJson)))
      = Except.error e
    rw [he]
    rfl
  unfold processQuery
  rw [hm]
  simp only [runLoop]
  rw [hcall]

/-- C2 counterexample: a concrete failing tool; the turn aborts with the
uncaught upstream error instead of continuing with an error-carrying
tool-result entry, and executeTool itself propagates the failure rather
than converting it. -/
theorem c2_counterexample :
    processQuery
      (fun _ => ModelOut.functionCall (S "search_papers") (S "\x7b\x7d") (S "c9"))
      (localCallTool
        (fun n => if n == S "search_papers" then
          some (fun _ => Except.error JsError.upstreamUnavailable) else none)
        (fun _ => []))
      (S "find chips papers") 5 = Except.error JsError.upstreamUnavailable ∧
    executeTool
      (fun n => if n == S "search_papers" then
        some (fun _ => Except.error JsError.upstreamUnavailable) else none)
      (S "search_papers") [(S "topic", JsValue.str (S "chips"))]
      = Except.error JsError.upstreamUnavailable :=
  ⟨rfl, rfl⟩

/-- C2 witness: the amended statement at a concrete failing tool. -/
theorem c2_witness :
    processQuery
      (fun _ => ModelOut.functionCall (S "search_papers") (S "\x7b\x7d") (S "c3"))
      (localCallTool
        (fun n => if n == S "search_papers" then
          some (fun _ => Except.error JsError.upstreamUnavailable) else none)
        (fun _ => [(S "topic", JsValue.str (S "q"))]))
      (S "hi") (2 + 1) = Except.error JsError.upstreamUnavailable :=
  c2_tool_failure_uncaught
    (fun n => if n == S "search_papers" then
      some (fun _ => Except.error JsError.upstreamUnavailable) else none)
    (fun _ => [(S "topic", JsValue.str (S "q"))])
    (fun _ => ModelOut.functionCall (S "search_papers") (S "\x7b\x7d") (S "c3"))
    (S "hi") (S "search_papers") (S "\x7b\x7d") (S "c3") 2
    (fun _ => Except.error JsError.upstreamUnavailable) JsError.upstreamUnavailable
    rfl rfl rfl

/-- C9: for a well-formed feed entry, the extracted record has the last
path segment of the id URL as identifier, the trimmed title and summary,
the date portion of the published timestamp, the author names in listing
order, and as pdf link the href of the link marked pdf (empty when no
such link exists), the last clause stated against the spec-side
selection. -/
theorem c9_entry_extraction (e : FeedEntry)
    (pre seg : Str) (hseg : '/' ∉ seg) (hid : e.idUrl = pre ++ '/' :: seg)
    (a1 t a2 : Str) (ht : e.title = a1 ++ t ++ a2)
    (ha1 : ∀ x ∈ a1, isJsWs x = true) (ha2 : ∀ x ∈ a2, isJsWs x = true)
    (hth : t.head?.all (fun x => !isJsWs x) = true)
    (htl : t.getLast?.all (fun x => !isJsWs x) = true)
    (b1 u b2 : Str) (hs : e.summary = b1 ++ u ++ b2)
    (hb1 : ∀ x ∈ b1, isJsWs x = true) (hb2 : ∀ x ∈ b2, isJsWs x = true)
    (huh : u.head?.all (fun x => !isJsWs x) = true)
    (hul : u.getLast?.all (fun x => !isJsWs x) = true)
    (date time : Str) (hdT : 'T' ∉ date)
    (hpub : e.published = date ++ 'T' :: time) :
    (extractEntry e).1 = seg ∧
    (extractEntry e).2.title = t ∧
    (extractEntry e).2.summary = u ∧
    (extractEntry e).2.published = date ∧
    (extractEntry e).2.authors = e.author.map (fun a => a.name.headD []) ∧
    (extractEntry e).2.pdf_url = specPdfVariantHref e.link := by
  refine ⟨?_, ?_, ?_, ?_, rfl, findPdfHref_eq_spec e.link⟩
  · show (splitOnChar '/' e.idUrl).getLastD [] = seg
    rw [hid]
    exact splitOnChar_getLastD pre seg hseg
  · show jsTrim e.title = t
    rw [ht]
    exact jsTrim_decomp a1 t a2 ha1 ha2 hth htl
  · show jsTrim e.summary = u
    rw [hs]
    exact jsTrim_decomp b1 u b2 hb1 hb2 huh hul
  · show (splitOnChar 'T' e.published).headD [] = date
    rw [hpub]
    exact splitOnChar_headD 'T' date time hdT

/-- C9 witness: the extraction clauses at a concrete entry with
surrounding whitespace, a timestamped published field, and a pdf link. -/
theorem c9_witness :
    (extractEntry ⟨S "http://arxiv.org/abs/2304.12345v1", S " A Title ",
      S " Sum mary ", S "2023-04-01T12:00:00Z", [⟨[S "Alice"]⟩, ⟨[S "Bo"]⟩],
      [⟨some (S "pdf"), some (S "http://arxiv.org/pdf/2304.12345v1")⟩]⟩).1
      = S "2304.12345v1" ∧
    (extractEntry ⟨S "http://arxiv.org/abs/2304.12345v1", S " A Title ",
      S " Sum mary ", S "2023-04-01T12:00:00Z", [⟨[S "Alice"]⟩, ⟨[S "Bo"]⟩],
      [⟨some (S "pdf"), some (S "http://arxiv.org/pdf/2304.12345v1")⟩]⟩).2.title
      = S "A Title" ∧
    (extractEntry ⟨S "http://arxiv.org/abs/2304.12345v1", S " A Title ",
      S " Sum mary ", S "2023-04-01T12:00:00Z", [⟨[S "Alice"]⟩, ⟨[S "Bo"]⟩],
      [⟨some (S "pdf"), some (S "http://arxiv.org/pdf/2304.12345v1")⟩]⟩).2.published
      = S "2023-04-01" := by
  have h := c9_entry_extraction
    ⟨S "http://arxiv.org/abs/2304.12345v1", S " A Title ",
      S " Sum mary ", S "2023-04-01T12:00:00Z", [⟨[S "Alice"]⟩, ⟨[S "Bo"]⟩],
      [⟨some (S "pdf"), some (S "http://arxiv.org/pdf/2304.12345v1")⟩]⟩
    (S "http://arxiv.org/abs") (S "2304.12345v1") (by decide) rfl
    [' '] (S "A Title") [' '] rfl (by decide) (by decide) rfl rfl
    [' '] (S "Sum mary") [' '] rfl (by decide) (by decide) rfl rfl
    (S "2023-04-01") (S "12:00:00Z") (by decide) rfl
  exact ⟨h.1, h.2.1, h.2.2.2.1⟩

/-- C10: executeTool dispatches tool arguments positionally, not by
name: it passes the values of the arguments mapping in key-insertion
order, so two mappings with the same value sequence are indistinguishable
to every tool; a mapping listing maxResults before topic binds the
maxResults value to the topic parameter of search_papers and vice versa;
and a mapping with wrong key names but correctly ordered values
dispatches exactly as the correctly named one. -/
theorem c10_positional_dispatch
    (impls : Str → Option (List JsValue → Except JsError JsValue))
    (name : Str) (args args2 : List (Str × JsValue))
    (h : executeToolDispatch args = executeToolDispatch args2) :
    executeTool impls name args = executeTool impls name args2 ∧
    bindSearchPapersParams (executeToolDispatch
      [(S "maxResults", JsValue.num 3), (S "topic", JsValue.str (S "x"))])
      = (JsValue.num 3, JsValue.str (S "x")) ∧
    executeToolDispatch [(S "alpha", JsValue.str (S "x")), (S "beta", JsValue.num 3)]
      = executeToolDispatch
        [(S "topic", JsValue.str (S "x")), (S "maxResults", JsValue.num 3)] := by
  refine ⟨?_, rfl, rfl⟩
  unfold executeTool
  rw [h]

/-- C10 witness: the dispatch equivalence at a transposed mapping and a
wrongly named mapping with the same value order. -/
theorem c10_witness :
    executeTool (fun _ => none) (S "search_papers")
      [(S "maxResults", JsValue.num 3), (S "topic", JsValue.str (S "x"))]
      = executeTool (fun _ => none) (S "search_papers")
        [(S "a", JsValue.num 3), (S "b", JsValue.str (S "x"))] ∧
    bindSearchPapersParams (executeToolDispatch
      [(S "maxResults", JsValue.num 3), (S "topic", JsValue.str (S "x"))])
      = (JsValue.num 3, JsValue.str (S "x")) ∧
    executeToolDispatch [(S "alpha", JsValue.str (S "x")), (S "beta", JsValue.num 3)]
      = executeToolDispatch
        [(S "topic", JsValue.str (S "x")), (S "maxResults", JsValue.num 3)] :=
  c10_positional_dispatch (fun _ => none) (S "search_papers")
    [(S "maxResults", JsValue.num 3), (S "topic", JsValue.str (S "x"))]
    [(S "a", JsValue.num 3), (S "b", JsValue.str (S "x"))] rfl

end ArxivChatbot
